import Mathlib

/-!
Verification of the jlawson-maps repository (map template editor):
pins, categories, serialization round trips, county overlay handling,
basemap switching and URL routing, modelled as a shallow embedding of
the JavaScript sources (src/js/app.js, src/js/map.js, src/unnamed/part_000,
src/unnamed/part_001).
-/

namespace JMaps

/-- A map pin, as stored in the per-map pin data (`{id, lngLat, number}` in the
source).  The source id is the string `pin-<n>` where `n` comes from the
module-level `nextPinId` counter; the map from `n` to `pin-<n>` is injective,
so we represent the id by its numeric suffix `n`.  `lngLat` is a longitude and
latitude pair (JS numbers, embedded as rationals) and `number` is the
user-visible display number (an integer after `parseInt`). -/
structure Pin where
  id : Nat
  lngLat : ℚ × ℚ
  number : Int
deriving DecidableEq, Repr

/-- The flat pin store of the `src/unnamed/part_000` draft: `map.userData.pins`
together with the module-level `nextPinId` high-water-mark counter. -/
structure FlatState where
  pins : List Pin
  nextPinId : Nat
deriving DecidableEq, Repr

/-- `addPin` of `src/unnamed/part_000` (lines 168-224): the new pin gets
`number = pins.length + 1` and the id `pin-<nextPinId>`; `nextPinId` is
post-incremented and the pin is appended to `userData.pins`. -/
def addPin (st : FlatState) (lngLat : ℚ × ℚ) : FlatState × Pin :=
  let pinNumber : Int := st.pins.length + 1
  let p : Pin := { id := st.nextPinId, lngLat := lngLat, number := pinNumber }
  ({ pins := st.pins ++ [p], nextPinId := st.nextPinId + 1 }, p)

/-- Removal of the first pin with a given id from a pin list: this is the
`findIndex` by id followed by `splice(index, 1)` done in `deletePin` of
`src/unnamed/part_000` (lines 300-315). -/
def eraseFirstById (l : List Pin) (i : Nat) : List Pin :=
  match l.findIdx? (fun p => p.id == i) with
  | none => l
  | some idx => l.eraseIdx idx

/-- `deletePin` of `src/unnamed/part_000`: removes the pin with the marker id
from `userData.pins`; the counter is untouched and no sibling is renumbered. -/
def deletePin (st : FlatState) (i : Nat) : FlatState :=
  { st with pins := eraseFirstById st.pins i }

/-- The renumber mutation of `showPinMenu` in `src/unnamed/part_000`
(lines 270-275): the pin whose id matches gets the new number, every other pin
is untouched (`marker.pinData.number = num` followed by `updateMapPins`). -/
def renumberList (l : List Pin) (i : Nat) (n : Int) : List Pin :=
  l.map (fun p => if p.id == i then { p with number := n } else p)

/-- The renumber dialog of `showPinMenu` in `src/unnamed/part_000`
(lines 256-275).  The numeric input field yields either an empty entry
(modelled `none`) or a numeral whose `parseInt` value is `n` (modelled
`some n`).  The `inputValidator` rejects exactly the empty or non-numeric
entries (`!value || isNaN(value)`); any numeral, including zero and negative
ones, passes and overwrites the display number. -/
def renumberResult (st : FlatState) (i : Nat) (entry : Option Int) :
    Except String FlatState :=
  match entry with
  | none => .error "Please enter a valid number"
  | some n => .ok { st with pins := renumberList st.pins i n }

/-- Whether a renumber attempt succeeded (was not blocked by the validator). -/
def renumberOk (e : Except String FlatState) : Bool :=
  match e with
  | .ok _ => true
  | .error _ => false

/-- One step of the `nextPinId` high-water update in `restorePins` of
`src/unnamed/part_000` (lines 381-385): `if (idNum >= nextPinId) nextPinId = idNum + 1`. -/
def hwmStep (next : Nat) (p : Pin) : Nat :=
  if p.id ≥ next then p.id + 1 else next

/-- `restorePins` of `src/unnamed/part_000` (lines 334-389): replaces the pin
list with the saved pins and advances the `nextPinId` counter past every
restored numeric id suffix. -/
def restorePins (st : FlatState) (saved : List Pin) : FlatState :=
  { pins := saved, nextPinId := saved.foldl hwmStep st.nextPinId }

/-- The pin mutations of the flat draft, for reasoning about operation
sequences: add (map click), delete, and a successful renumber. -/
inductive FlatOp
  | add (lngLat : ℚ × ℚ)
  | del (i : Nat)
  | renum (i : Nat) (n : Int)
deriving DecidableEq, Repr

/-- Apply one pin mutation of the flat draft. -/
def applyFlatOp (st : FlatState) : FlatOp → FlatState
  | .add ll => (addPin st ll).1
  | .del i => deletePin st i
  | .renum i n => { st with pins := renumberList st.pins i n }

/-- Run a sequence of pin mutations of the flat draft. -/
def runFlat (st : FlatState) : List FlatOp → FlatState
  | [] => st
  | op :: ops => runFlat (applyFlatOp st op) ops

/-- The numeric id suffixes allocated by the `addPin` calls of an operation
sequence (each `addPin` allocates the current `nextPinId`). -/
def allocatedIds (st : FlatState) : List FlatOp → List Nat
  | [] => []
  | .add ll :: ops => st.nextPinId :: allocatedIds (applyFlatOp st (.add ll)) ops
  | op :: ops => allocatedIds (applyFlatOp st op) ops

/-- The pin categories (comp types) of the newest draft: sales, rent, land. -/
inductive Category
  | sales
  | rent
  | land
deriving DecidableEq, Repr

/-- Modelled from the spec: the per-category Pin Registry of the newest map.js
draft is not under src/; only its caller `src/js/app.js` is (it calls
`switchCompType`, passes `salePins`/`rentPins`/`landPins` buckets to
`restorePins` and reads them in `getRelevantMapState`).  Spec section 4.1: the
registry keeps one ordered pin sequence per category plus the process-wide
`nextPinId` counter.  The bucket layout follows `getRelevantMapState` of
`src/js/app.js` (lines 1115-1125); the id allocation and removal logic mirror
`addPin` and `deletePin` of `src/unnamed/part_000`. -/
structure CatState where
  salePins : List Pin
  rentPins : List Pin
  landPins : List Pin
  nextPinId : Nat
deriving DecidableEq, Repr

/-- The ordered pin sequence of one category. -/
def CatState.bucket (st : CatState) : Category → List Pin
  | .sales => st.salePins
  | .rent => st.rentPins
  | .land => st.landPins

/-- Replace the ordered pin sequence of one category. -/
def CatState.setBucket (st : CatState) : Category → List Pin → CatState
  | .sales, l => { st with salePins := l }
  | .rent, l => { st with rentPins := l }
  | .land, l => { st with landPins := l }

/-- Modelled from the spec: `addPin(category, position)` of the per-category
registry is missing from src/ (spec section 4.1).  The new
pin gets `displayNumber` = count of existing pins in that category + 1, and the
process-wide id `pin-<nextPinId>`; the pin is appended to the ordered sequence
of its category.  Id allocation mirrors `addPin` of `src/unnamed/part_000`. -/
def addPinCat (st : CatState) (cat : Category) (lngLat : ℚ × ℚ) :
    CatState × Pin :=
  let pinNumber : Int := (st.bucket cat).length + 1
  let p : Pin := { id := st.nextPinId, lngLat := lngLat, number := pinNumber }
  ({ st.setBucket cat (st.bucket cat ++ [p]) with nextPinId := st.nextPinId + 1 }, p)

/-- Modelled from the spec: `deletePin(id)` of the per-category registry is
missing from src/ (spec section 4.1).  Removes the pin with
that id from its category sequence, no renumbering of siblings; the removal
logic mirrors `deletePin` of `src/unnamed/part_000` applied to each bucket. -/
def deletePinCat (st : CatState) (i : Nat) : CatState :=
  { st with
    salePins := eraseFirstById st.salePins i
    rentPins := eraseFirstById st.rentPins i
    landPins := eraseFirstById st.landPins i }

/-- Modelled from the spec: `renumberPin(id, newNumber)` of the per-category
registry is missing from src/ (spec section 4.1).  Overwrites the display number of the pin with that id, no uniqueness check;
mirrors the renumber mutation of `showPinMenu` in `src/unnamed/part_000`
applied to each bucket. -/
def renumberPinCat (st : CatState) (i : Nat) (n : Int) : CatState :=
  { st with
    salePins := renumberList st.salePins i n
    rentPins := renumberList st.rentPins i n
    landPins := renumberList st.landPins i n }

/-- The registry mutations of the per-category draft. -/
inductive CatOp
  | add (cat : Category) (lngLat : ℚ × ℚ)
  | del (i : Nat)
  | renum (i : Nat) (n : Int)
deriving DecidableEq, Repr

/-- Apply one registry mutation. -/
def applyCatOp (st : CatState) : CatOp → CatState
  | .add cat ll => (addPinCat st cat ll).1
  | .del i => deletePinCat st i
  | .renum i n => renumberPinCat st i n

/-- Run a sequence of registry mutations. -/
def runCat (st : CatState) : List CatOp → CatState
  | [] => st
  | op :: ops => runCat (applyCatOp st op) ops

/-- The empty per-category registry (no pins, `nextPinId = 1` as in the
module initialisation `let nextPinId = 1`). -/
def emptyCat : CatState := ⟨[], [], [], 1⟩

/-- All pins of the registry, category sequences concatenated. -/
def allPins (st : CatState) : List Pin :=
  st.salePins ++ st.rentPins ++ st.landPins

/-- The numeric id suffixes of all pins of the registry. -/
def allIds (st : CatState) : List Nat :=
  (allPins st).map Pin.id

/-- Registry invariant: ids are pairwise distinct across all category
sequences and every id is below the high-water-mark counter. -/
def CatInv (st : CatState) : Prop :=
  (allIds st).Nodup ∧ ∀ a ∈ allIds st, a < st.nextPinId

/-- The selectable basemaps (`BASEMAP_CONFIGS` of `src/unnamed/part_000`). -/
inductive Basemap
  | street
  | gray
  | satellite
deriving DecidableEq, Repr

/-- County overlay state (`userData.countyBoundaries` in the source):
`{ enabled, selectedCounties }`. -/
structure CountyBoundaries where
  enabled : Bool
  selectedCounties : List String
deriving DecidableEq, Repr

/-- The default county overlay state of `DEFAULT_MAP_STATE`. -/
def defaultCountyBoundaries : CountyBoundaries := ⟨false, []⟩

/-- A geographic feature of a county GeoJSON file; its geometry content is
irrelevant here, so a feature is an opaque token. -/
abbrev GeoFeature := String

/-- The possible contents of one fetched county GeoJSON document, matching the
three branches of `fetchGeorgiaCounties` in `src/unnamed/part_001`:
a document with a `features` array, a single `Feature`, or anything else. -/
inductive CountyDoc
  | collection (features : List GeoFeature)
  | feature (f : GeoFeature)
  | other
deriving DecidableEq, Repr

/-- `fetchGeorgiaCounties` of `src/unnamed/part_001` (lines 24-58).  The
environment `fetchEnv` maps a county name to its fetched document, `none`
standing for a missing resource (`!response.ok`) or a failed fetch or JSON
parse (both caught by the inner catch): such a name is logged and skipped
(`continue`), and the loop goes on.  A `features` array is spread into the
accumulator, a single `Feature` is pushed, anything else contributes nothing.
The result is the `features` list of the returned `FeatureCollection`; the
function is total, so the overall call never fails because one county did. -/
def fetchGeorgiaCounties (fetchEnv : String → Option CountyDoc)
    (countyNames : List String) : List GeoFeature :=
  countyNames.foldl
    (fun features name =>
      match fetchEnv name with
      | none => features
      | some (.collection fs) => features ++ fs
      | some (.feature f) => features ++ [f]
      | some .other => features)
    []

/-- The normalized feature list contributed by one fetched document: nothing
for a missing or failing county, the spread array for a collection, a
singleton for a single `Feature`, nothing otherwise. -/
def docFeatures : Option CountyDoc → List GeoFeature
  | none => []
  | some (.collection fs) => fs
  | some (.feature f) => [f]
  | some .other => []

/-- The per-name merge that `fetchGeorgiaCounties` is claimed to compute: the
concatenation, in request order, of the normalized features of each requested name,
failing names contributing nothing. -/
def mergedFeatures (fetchEnv : String → Option CountyDoc) :
    List String → List GeoFeature
  | [] => []
  | n :: ns => docFeatures (fetchEnv n) ++ mergedFeatures fetchEnv ns

/-- Camera state of the live map: center, zoom, bearing, pitch. -/
structure Camera where
  center : ℚ × ℚ
  zoom : ℚ
  bearing : ℚ
  pitch : ℚ
deriving DecidableEq, Repr

/-- The live map of `src/unnamed/part_000`: camera, current basemap, the
`userData.countyBoundaries` record, and the style-scoped county overlay
(`some fs` when the `counties` source and `county-boundaries-line` layer are
on the style, carrying the fetched GeoJSON features; `none` when absent). -/
structure MapView where
  camera : Camera
  basemap : Basemap
  countyBoundaries : CountyBoundaries
  countiesLayer : Option (List GeoFeature)
deriving DecidableEq, Repr

/-- `updateCountyBoundaries` of `src/unnamed/part_000` (lines 407-452): writes
`{enabled, selectedCounties}` to `userData` (a null selection becomes `[]`),
removes any existing overlay layer and source, then re-adds them with the
fetched merged GeoJSON exactly when `enabled && selectedCounties.length > 0`.
`fetchGeorgiaCounties` is total (per-county failures are swallowed inside it),
so the catch branch that would skip the add is unreachable. -/
def updateCountyBoundaries (fetchEnv : String → Option CountyDoc)
    (m : MapView) (enabled : Bool) (selectedCounties : List String) : MapView :=
  let m1 : MapView :=
    { m with countyBoundaries := ⟨enabled, selectedCounties⟩, countiesLayer := none }
  if enabled && decide (0 < selectedCounties.length) then
    { m1 with countiesLayer := some (fetchGeorgiaCounties fetchEnv selectedCounties) }
  else m1

/-- `switchBasemap` of `src/unnamed/part_000` (lines 474-528).  The camera and
a deep copy of the county overlay state are snapshotted first (477-487);
`setStyle` replaces the style, destroying the style-scoped overlay source and
layer and leaving the view at whatever camera the map reports when
`style.load` fires (modelled by the adversarial `styleCam`); the `style.load`
handler jumps back to the snapshot with no animation (503-514); the `idle`
handler re-adds the overlay via `updateCountyBoundaries` only if it was
enabled with a non-empty selection (517-521), and then the completion promise
resolves. -/
def switchBasemap (fetchEnv : String → Option CountyDoc) (m : MapView)
    (b : Basemap) (styleCam : Camera) : MapView :=
  let cam := m.camera
  let cc : CountyBoundaries :=
    ⟨m.countyBoundaries.enabled, m.countyBoundaries.selectedCounties⟩
  let m1 : MapView :=
    { m with basemap := b, countyBoundaries := cc, countiesLayer := none,
             camera := styleCam }
  let m2 : MapView := { m1 with camera := cam }
  if cc.enabled && decide (0 < cc.selectedCounties.length) then
    updateCountyBoundaries fetchEnv m2 cc.enabled cc.selectedCounties
  else m2

/-- The in-memory map state of the newest draft, the unit that must round-trip
through persistence: camera, basemap, the three per-category pin sequences,
the active comp type, and the county overlay state. -/
structure MapState where
  center : ℚ × ℚ
  zoom : ℚ
  bearing : ℚ
  pitch : ℚ
  basemap : Basemap
  salePins : List Pin
  rentPins : List Pin
  landPins : List Pin
  currentCompType : Category
  countyBoundaries : CountyBoundaries
deriving DecidableEq, Repr

/-- The persisted `map_state` JSON document (spec section 6): camera fields,
then optional fields whose presence in the stored object matters to the
restore dispatch: the three per-category buckets of the current shape, the
flat `pins` list of the legacy shape, `basemap`, `currentCompType` and
`countyBoundaries` (each defaulted when absent). -/
structure PersistedMapState where
  center : ℚ × ℚ
  zoom : ℚ
  bearing : ℚ
  pitch : ℚ
  basemap : Option Basemap
  salePins : Option (List Pin)
  rentPins : Option (List Pin)
  landPins : Option (List Pin)
  pins : Option (List Pin)
  currentCompType : Option Category
  countyBoundaries : Option CountyBoundaries
deriving DecidableEq, Repr

/-- Modelled from the spec: `getMapState` of the newest map.js draft (the
per-category serializer) is not under src/; `src/js/app.js` calls it in
`handleSave` (line 868).  Spec sections 4.4 and 6: it captures the camera, the
basemap, the three per-category buckets, the current comp type and the county
overlay state; the serialized record always carries the current per-category
shape, never the legacy flat `pins` list. -/
def getMapState (s : MapState) : PersistedMapState :=
  { center := s.center, zoom := s.zoom, bearing := s.bearing, pitch := s.pitch,
    basemap := some s.basemap,
    salePins := some s.salePins, rentPins := some s.rentPins,
    landPins := some s.landPins, pins := none,
    currentCompType := some s.currentCompType,
    countyBoundaries := some s.countyBoundaries }

/-- The pin-restore dispatch of `loadExistingMap` in `src/js/app.js`
(lines 512-518): if any of `salePins`, `rentPins`, `landPins` is present in
the stored object (a present-but-empty array counts, arrays are truthy), the
buckets are restored as they are; otherwise a non-empty legacy flat `pins`
list is normalized into the `sales` bucket; otherwise nothing is restored. -/
def restorePinsDispatch (p : PersistedMapState) :
    List Pin × List Pin × List Pin :=
  if p.salePins.isSome || p.rentPins.isSome || p.landPins.isSome then
    (p.salePins.getD [], p.rentPins.getD [], p.landPins.getD [])
  else
    match p.pins with
    | some l => if 0 < l.length then (l, [], []) else ([], [], [])
    | none => ([], [], [])

/-- The restore path of `loadExistingMap` in `src/js/app.js` (lines 489-540):
`initializeMap` applies the persisted camera and basemap (`state.basemap` with a street default, `src/unnamed/part_000` lines 74-107), the pin dispatch of lines
512-518 fills the buckets, line 521 restores the comp type
(`currentCompType` with a sales default), and lines 526-528 restore the county overlay
state (defaulted when absent). -/
def restoreMapState (p : PersistedMapState) : MapState :=
  let buckets := restorePinsDispatch p
  { center := p.center, zoom := p.zoom, bearing := p.bearing, pitch := p.pitch,
    basemap := p.basemap.getD .street,
    salePins := buckets.1, rentPins := buckets.2.1, landPins := buckets.2.2,
    currentCompType := p.currentCompType.getD .sales,
    countyBoundaries := p.countyBoundaries.getD defaultCountyBoundaries }

/-- A browser location, reduced to what the routing code touches: the path and
the fragment (`window.location.hash`), both as character lists (JS strings). -/
structure Url where
  pathname : List Char
  hash : List Char
deriving DecidableEq, Repr

/-- The characters of the `#map/` fragment marker used by the routing. -/
def mapHashMarker : List Char := ['#', 'm', 'a', 'p', '/']

/-- JS truthiness of a nullable string: false for null and for the empty
string, true for every non-empty string. -/
def truthyStr : Option (List Char) → Bool
  | none => false
  | some [] => false
  | some (_ :: _) => true

/-- `updateUrl` of `src/js/app.js` (lines 1192-1198): the guard `if (mapId)`
is JS truthiness, so a truthy (non-null, non-empty) id pushes `#map/<id>` as
the fragment, while both a null id and the empty-string id take the else
branch, which pushes the bare pathname and clears the fragment. -/
def updateUrl (u : Url) (mapId : Option (List Char)) : Url :=
  if truthyStr mapId then { u with hash := mapHashMarker ++ mapId.getD [] }
  else { u with hash := [] }

/-- `getMapIdFromUrl` of `src/js/app.js` (lines 1180-1186): if the fragment
starts with `#map/` it returns everything after that marker, else null. -/
def getMapIdFromUrl (u : Url) : Option (List Char) :=
  if mapHashMarker.isPrefixOf u.hash then some (u.hash.drop 5) else none

/-! ## Theorems -/

/-- Helper: the loader fold equals the accumulator followed by the per-name
merge of normalized features. -/
theorem fetchGeorgiaCounties_foldl (fetchEnv : String → Option CountyDoc) :
    ∀ (names : List String) (acc : List GeoFeature),
      List.foldl
        (fun features name =>
          match fetchEnv name with
          | none => features
          | some (.collection fs) => features ++ fs
          | some (.feature f) => features ++ [f]
          | some .other => features)
        acc names
      = acc ++ mergedFeatures fetchEnv names := by
  intro names
  induction names with
  | nil => intro acc; simp [mergedFeatures]
  | cons n ns ih =>
      intro acc
      rw [List.foldl_cons, ih]
      cases h : fetchEnv n with
      | none => simp [mergedFeatures, docFeatures, h]
      | some d => cases d <;> simp [mergedFeatures, docFeatures, h]

/-- C7: for every set of requested county names the loader returns the one
merged flat feature collection in which every name whose fetch is missing or
failing contributes nothing (skipped, not raised), every collection-shaped
file is spread and every single-feature file contributes its one feature, the
call being a total function that never fails because one county did; in
particular requesting Hall and NoSuchCounty against an environment that only
has a Hall file yields exactly the Hall geometry. -/
theorem fetchGeorgiaCounties_partial_failure :
    (∀ (fetchEnv : String → Option CountyDoc) (names : List String),
        fetchGeorgiaCounties fetchEnv names = mergedFeatures fetchEnv names) ∧
    fetchGeorgiaCounties
      (fun n => if n = "Hall" then some (.collection ["hall-boundary"]) else none)
      ["Hall", "NoSuchCounty"] = ["hall-boundary"] := by
  constructor
  · intro fetchEnv names
    unfold fetchGeorgiaCounties
    simpa using fetchGeorgiaCounties_foldl fetchEnv names []
  · rfl

/-- C9: after any overlay update completes, the county overlay layer is on the
style exactly when the stored overlay state has `enabled = true` and a
non-empty county selection. -/
theorem countyOverlay_rendered_iff :
    ∀ (fetchEnv : String → Option CountyDoc) (m : MapView) (enabled : Bool)
      (sel : List String),
      ((updateCountyBoundaries fetchEnv m enabled sel).countiesLayer.isSome = true) ↔
        ((updateCountyBoundaries fetchEnv m enabled sel).countyBoundaries.enabled = true ∧
         (updateCountyBoundaries fetchEnv m enabled sel).countyBoundaries.selectedCounties ≠ []) := by
  intro fetchEnv m enabled sel
  cases enabled <;> cases sel <;> simp [updateCountyBoundaries]

/-- C3: a completed basemap switch leaves the camera (center, zoom, bearing,
pitch) exactly equal to its pre-switch snapshot (hence within any
floating-point tolerance), whatever camera the style swap itself produced, and
the county overlay layer is back on the style exactly when the overlay was
enabled with a non-empty selection before the switch. -/
theorem switchBasemap_camera_overlay :
    ∀ (fetchEnv : String → Option CountyDoc) (m : MapView) (b : Basemap)
      (styleCam : Camera),
      (switchBasemap fetchEnv m b styleCam).camera = m.camera ∧
      ((switchBasemap fetchEnv m b styleCam).countiesLayer.isSome = true ↔
        (m.countyBoundaries.enabled = true ∧
         m.countyBoundaries.selectedCounties ≠ [])) := by
  intro fetchEnv m b styleCam
  cases hm : m.countyBoundaries.enabled <;>
    cases hs : m.countyBoundaries.selectedCounties <;>
      simp [switchBasemap, updateCountyBoundaries, hm, hs]

/-- C10 counterexample: the empty id is non-null and contains no hash
character, yet `if (mapId)` is false on the empty string, so the program
clears the fragment and reading back yields null, not the empty id. -/
theorem url_empty_id_counterexample :
    getMapIdFromUrl (updateUrl ⟨[], []⟩ (some [])) = none ∧
    (none : Option (List Char)) ≠ some ([] : List Char) :=
  ⟨rfl, by decide⟩

/-- C10 amended: for every non-null and non-empty template id not containing
a hash character, writing it into the URL and reading it back gives the id
back (the `#map/<id>` fragment format), and clearing the URL with a null id
reads back as null. -/
theorem url_mapId_roundTrip :
    ∀ (u : Url) (i : List Char), i ≠ [] → '#' ∉ i →
      getMapIdFromUrl (updateUrl u (some i)) = some i ∧
      getMapIdFromUrl (updateUrl u none) = none := by
  intro u i hne _h
  refine ⟨?_, by simp [getMapIdFromUrl, updateUrl, truthyStr, mapHashMarker,
    List.isPrefixOf]⟩
  rcases i with _ | ⟨c, cs⟩
  · exact absurd rfl hne
  · show getMapIdFromUrl ⟨u.pathname, mapHashMarker ++ (c :: cs)⟩ = some (c :: cs)
    unfold getMapIdFromUrl
    rw [if_pos (by simp)]
    rw [show (⟨u.pathname, mapHashMarker ++ (c :: cs)⟩ : Url).hash
          = mapHashMarker ++ (c :: cs) from rfl]
    rw [List.drop_left' (by rfl : mapHashMarker.length = 5)]

/-- Witness for C10 amended at a concrete non-empty id. -/
theorem url_mapId_roundTrip_witness :
    getMapIdFromUrl (updateUrl ⟨[], []⟩ (some ['a', 'b'])) = some ['a', 'b'] ∧
    getMapIdFromUrl (updateUrl ⟨[], []⟩ none) = none :=
  url_mapId_roundTrip ⟨[], []⟩ ['a', 'b'] (by decide) (by decide)

/-- C1: restoring the result of serializing any in-memory map state yields
that state back unchanged (the round-trip law; the serialized record is
always current-shape), and restoring a legacy-shape record, whose pins are
one flat undifferentiated list and which has no per-category bucket, puts all
those pins into the `sales` bucket and leaves `rent` and `land` empty. -/
theorem mapState_roundTrip_and_legacy :
    (∀ s : MapState, restoreMapState (getMapState s) = s) ∧
    (∀ (p : PersistedMapState) (l : List Pin),
        p.salePins = none → p.rentPins = none → p.landPins = none →
        p.pins = some l →
        (restoreMapState p).salePins = l ∧ (restoreMapState p).rentPins = [] ∧
        (restoreMapState p).landPins = []) := by
  constructor
  · intro s
    rfl
  · intro p l hs hr hl hp
    simp only [restoreMapState, restorePinsDispatch, hs, hr, hl, hp,
      Option.isSome_none, Bool.or_self, Bool.false_eq_true, if_false]
    rcases l with _ | ⟨a, l⟩ <;> simp

/-- Witness for C1 at a concrete current-shape state and a concrete
legacy-shape record with two flat pins. -/
theorem mapState_roundTrip_witness :
    restoreMapState
        (getMapState
          ⟨(0, 0), 10, 0, 0, .gray, [⟨1, (0, 0), 1⟩], [], [⟨2, (0, 0), 1⟩],
            .rent, ⟨true, ["Hall"]⟩⟩) =
      ⟨(0, 0), 10, 0, 0, .gray, [⟨1, (0, 0), 1⟩], [], [⟨2, (0, 0), 1⟩],
        .rent, ⟨true, ["Hall"]⟩⟩ ∧
    (restoreMapState
        ⟨(0, 0), 10, 0, 0, none, none, none, none,
          some [⟨1, (0, 0), 1⟩, ⟨2, (0, 0), 2⟩], none, none⟩).salePins =
      [⟨1, (0, 0), 1⟩, ⟨2, (0, 0), 2⟩] ∧
    (restoreMapState
        ⟨(0, 0), 10, 0, 0, none, none, none, none,
          some [⟨1, (0, 0), 1⟩, ⟨2, (0, 0), 2⟩], none, none⟩).rentPins = [] ∧
    (restoreMapState
        ⟨(0, 0), 10, 0, 0, none, none, none, none,
          some [⟨1, (0, 0), 1⟩, ⟨2, (0, 0), 2⟩], none, none⟩).landPins = [] :=
  ⟨mapState_roundTrip_and_legacy.1 _,
   mapState_roundTrip_and_legacy.2 _ [⟨1, (0, 0), 1⟩, ⟨2, (0, 0), 2⟩]
     rfl rfl rfl rfl⟩

/-- C2: `addPin` gives the new pin a display number equal to the count of
pins already in its own category plus one, a value independent of the other
categories; in particular a first `sales` pin and then a first `rent` pin
both get display number 1. -/
theorem addPinCat_displayNumber :
    (∀ (st : CatState) (cat : Category) (lngLat : ℚ × ℚ),
        ((addPinCat st cat lngLat).2).number = (st.bucket cat).length + 1) ∧
    (((addPinCat emptyCat .sales (-84, 33)).2).number = 1 ∧
     ((addPinCat emptyCat .sales (-84, 33)).2).id = 1 ∧
     ((addPinCat emptyCat .sales (-84, 33)).1).salePins.length = 1 ∧
     ((addPinCat ((addPinCat emptyCat .sales (-84, 33)).1) .rent
        (-84, 33)).2).number = 1 ∧
     ((addPinCat ((addPinCat emptyCat .sales (-84, 33)).1) .rent
        (-84, 33)).1).rentPins.length = 1) := by
  refine ⟨fun st cat lngLat => rfl, ?_⟩
  refine ⟨rfl, rfl, rfl, rfl, rfl⟩

/-- C6 counterexample: the renumber validator accepts the numeric entry `-5`,
which is not a valid positive integer, and the pin display number becomes
`-5`; so renumbering does not fail exactly on non-positive-integer input. -/
theorem renumber_negative_counterexample :
    renumberOk (renumberResult ⟨[⟨1, (0, 0), 1⟩], 2⟩ 1 (some (-5))) = true ∧
    renumberResult ⟨[⟨1, (0, 0), 1⟩], 2⟩ 1 (some (-5)) =
      .ok ⟨[⟨1, (0, 0), -5⟩], 2⟩ ∧
    ((-5 : Int) ≤ 0) :=
  ⟨rfl, rfl, by decide⟩

/-- C6 amended: the renumber dialog fails with the validation error exactly
when the entry is empty or non-numeric (any numeral, including zero and
negative ones, is accepted after `parseInt` truncation), a successful
renumber overwrites only the display number of the targeted pin with no uniqueness
check, and renumbering one pin to 7 and then another pin to 7 leaves both
with display number 7. -/
theorem renumber_validation_and_overwrite :
    (∀ (st : FlatState) (i : Nat) (entry : Option Int),
        renumberOk (renumberResult st i entry) = true ↔ entry.isSome = true) ∧
    (∀ (st st1 st2 : FlatState) (i j : Nat),
        renumberResult st i (some 7) = .ok st1 →
        renumberResult st1 j (some 7) = .ok st2 →
        ∀ p ∈ st2.pins, (p.id = i ∨ p.id = j) → p.number = 7) := by
  constructor
  · intro st i entry
    cases entry <;> simp [renumberResult, renumberOk]
  · intro st st1 st2 i j h1 h2 p hp hpid
    simp only [renumberResult, Except.ok.injEq] at h1 h2
    subst h1
    subst h2
    simp only [renumberList, List.map_map, List.mem_map, Function.comp] at hp
    obtain ⟨q, _hq, rfl⟩ := hp
    by_cases hqi : q.id = i <;> by_cases hqj : q.id = j <;>
      simp_all [renumberList]

/-- Witness for C6 amended: a concrete two-pin store, both pins renumbered
to 7. -/
theorem renumber_validation_witness :
    renumberOk (renumberResult ⟨[], 1⟩ 1 (some 7)) = true ∧
    (⟨2, (0, 0), 7⟩ : Pin).number = 7 := by
  constructor
  · exact (renumber_validation_and_overwrite.1 ⟨[], 1⟩ 1 (some 7)).mpr rfl
  · exact renumber_validation_and_overwrite.2
      ⟨[⟨1, (0, 0), 1⟩, ⟨2, (0, 0), 2⟩], 3⟩
      ⟨[⟨1, (0, 0), 7⟩, ⟨2, (0, 0), 2⟩], 3⟩
      ⟨[⟨1, (0, 0), 7⟩, ⟨2, (0, 0), 7⟩], 3⟩
      1 2 rfl rfl ⟨2, (0, 0), 7⟩ (by decide) (Or.inr rfl)

/-- Helper: the combination of `findIndex` by a predicate and `splice` at the
found index removes exactly the first matching element, i.e. it computes
`List.eraseP`. -/
theorem findIdx_eraseIdx_eq_eraseP {α : Type} (pr : α → Bool) :
    ∀ l : List α,
      (match l.findIdx? pr with
       | none => l
       | some idx => l.eraseIdx idx) = l.eraseP pr := by
  intro l
  induction l with
  | nil => rfl
  | cons a l ih =>
      by_cases hpa : pr a = true
      · simp [List.findIdx?_cons, hpa]
      · rw [List.findIdx?_cons, if_neg (by simpa using hpa), List.findIdx?_succ,
          List.eraseP_cons_of_neg (by simpa using hpa)]
        cases h₀ : l.findIdx? pr with
        | none =>
            rw [h₀] at ih
            simpa using congrArg (List.cons a) ih
        | some idx =>
            rw [h₀] at ih
            simpa using congrArg (List.cons a) ih

/-- Helper: `eraseFirstById` equals `eraseP` on the id predicate. -/
theorem eraseFirstById_eq_eraseP (l : List Pin) (i : Nat) :
    eraseFirstById l i = l.eraseP (fun p => p.id == i) :=
  findIdx_eraseIdx_eq_eraseP _ l

/-- Helper: removal of the first matching pin yields a sublist. -/
theorem eraseFirstById_sublist (l : List Pin) (i : Nat) :
    List.Sublist (eraseFirstById l i) l := by
  rw [eraseFirstById_eq_eraseP]
  exact List.eraseP_sublist l

/-- C8: deleting a pin whose id is present removes exactly that pin from the
sequence; every pin before it and after it is kept with all of its fields
(display number included) and its relative order unchanged, and the id
counter is untouched, so no sibling is ever renumbered and gaps remain. -/
theorem deletePin_frame (st : FlatState) (i : Nat)
    (h : ∃ p ∈ st.pins, p.id = i) :
    ∃ p l₁ l₂, st.pins = l₁ ++ p :: l₂ ∧ p.id = i ∧ (∀ q ∈ l₁, q.id ≠ i) ∧
      (deletePin st i).pins = l₁ ++ l₂ ∧
      (deletePin st i).nextPinId = st.nextPinId := by
  obtain ⟨p, hp, hpi⟩ := h
  obtain ⟨a, l₁, l₂, h₁, h₂, h₃, h₄⟩ :=
    List.exists_of_eraseP (p := fun q => q.id == i) hp (by simpa using hpi)
  refine ⟨a, l₁, l₂, h₃, by simpa using h₂, ?_, ?_, rfl⟩
  · intro q hq
    simpa using h₁ q hq
  · show eraseFirstById st.pins i = l₁ ++ l₂
    rw [eraseFirstById_eq_eraseP]
    exact h₄

/-- Witness for C8: deleting id 1 from a concrete two-pin store. -/
theorem deletePin_frame_witness :
    ∃ p l₁ l₂,
      ([⟨1, (0, 0), 1⟩, ⟨2, (0, 0), 2⟩] : List Pin) = l₁ ++ p :: l₂ ∧
      p.id = 1 ∧ (∀ q ∈ l₁, q.id ≠ 1) ∧
      (deletePin ⟨[⟨1, (0, 0), 1⟩, ⟨2, (0, 0), 2⟩], 3⟩ 1).pins = l₁ ++ l₂ ∧
      (deletePin ⟨[⟨1, (0, 0), 1⟩, ⟨2, (0, 0), 2⟩], 3⟩ 1).nextPinId = 3 :=
  deletePin_frame ⟨[⟨1, (0, 0), 1⟩, ⟨2, (0, 0), 2⟩], 3⟩ 1
    ⟨⟨1, (0, 0), 1⟩, by decide, rfl⟩

/-- Helper: one high-water step never decreases the counter. -/
theorem hwmStep_le (next : Nat) (p : Pin) : next ≤ hwmStep next p := by
  unfold hwmStep
  split <;> omega

/-- Helper: the high-water fold never decreases the counter. -/
theorem hwm_foldl_le : ∀ (l : List Pin) (next : Nat),
    next ≤ l.foldl hwmStep next := by
  intro l
  induction l with
  | nil => intro next; exact le_refl next
  | cons a l ih =>
      intro next
      exact le_trans (hwmStep_le next a) (ih _)

/-- Helper: after the high-water fold the counter exceeds every folded id. -/
theorem hwm_foldl_gt : ∀ (l : List Pin) (next : Nat), ∀ p ∈ l,
    p.id < l.foldl hwmStep next := by
  intro l
  induction l with
  | nil => intro next p hp; cases hp
  | cons a l ih =>
      intro next p hp
      rw [List.foldl_cons]
      rcases List.mem_cons.mp hp with rfl | hp2
      · exact lt_of_lt_of_le (by unfold hwmStep; split <;> omega)
          (hwm_foldl_le l _)
      · exact ih _ p hp2

/-- Helper: no flat mutation ever decreases the id counter. -/
theorem applyFlatOp_next_le (st : FlatState) (op : FlatOp) :
    st.nextPinId ≤ (applyFlatOp st op).nextPinId := by
  cases op <;> simp [applyFlatOp, addPin, deletePin]

/-- Helper: every id allocated while running a mutation sequence is at least
the starting counter value. -/
theorem allocatedIds_ge : ∀ (ops : List FlatOp) (st : FlatState) (a : Nat),
    a ∈ allocatedIds st ops → st.nextPinId ≤ a := by
  intro ops
  induction ops with
  | nil => intro st a ha; cases ha
  | cons op ops ih =>
      intro st a ha
      cases op with
      | add ll =>
          simp only [allocatedIds] at ha
          rcases List.mem_cons.mp ha with rfl | ha2
          · exact le_refl _
          · exact le_trans (applyFlatOp_next_le st _) (ih _ a ha2)
      | del i =>
          simp only [allocatedIds] at ha
          exact le_trans (applyFlatOp_next_le st _) (ih _ a ha)
      | renum i n =>
          simp only [allocatedIds] at ha
          exact le_trans (applyFlatOp_next_le st _) (ih _ a ha)

/-- C5: restoring pins resets the id counter above the largest numeric id
suffix among the restored pins, and therefore every id that `addPin`
allocates afterwards (through any further mutation sequence) differs from
the id of every restored pin. -/
theorem restorePins_highWaterMark :
    ∀ (st : FlatState) (saved : List Pin),
      (∀ p ∈ saved, p.id < (restorePins st saved).nextPinId) ∧
      (∀ (ops : List FlatOp) (a : Nat),
          a ∈ allocatedIds (restorePins st saved) ops →
          ∀ p ∈ saved, a ≠ p.id) := by
  intro st saved
  constructor
  · intro p hp
    exact hwm_foldl_gt saved st.nextPinId p hp
  · intro ops a ha p hp
    have h1 : (restorePins st saved).nextPinId ≤ a := allocatedIds_ge ops _ a ha
    have h2 : p.id < (restorePins st saved).nextPinId :=
      hwm_foldl_gt saved st.nextPinId p hp
    omega

/-- Witness for C5: restoring a single pin with suffix 7 pushes the counter
to 8 and the next allocated id is 8, distinct from 7. -/
theorem restorePins_highWaterMark_witness :
    (⟨7, (0, 0), 1⟩ : Pin).id < (restorePins ⟨[], 1⟩ [⟨7, (0, 0), 1⟩]).nextPinId ∧
    (8 : Nat) ≠ (⟨7, (0, 0), 1⟩ : Pin).id :=
  ⟨(restorePins_highWaterMark ⟨[], 1⟩ [⟨7, (0, 0), 1⟩]).1 _ (by decide),
   (restorePins_highWaterMark ⟨[], 1⟩ [⟨7, (0, 0), 1⟩]).2 [.add (0, 0)] 8
     (by decide) _ (by decide)⟩

/-- Helper: renumbering preserves the id sequence of a pin list. -/
theorem renumberList_map_id (i : Nat) (n : Int) :
    ∀ l : List Pin, (renumberList l i n).map Pin.id = l.map Pin.id := by
  intro l
  induction l with
  | nil => rfl
  | cons a l ih =>
      simp only [renumberList, List.map_cons] at ih ⊢
      rw [ih]
      congr 1
      split <;> rfl

/-- Helper: registry mutations preserve the id invariant. -/
theorem catInv_step (st : CatState) (op : CatOp) (h : CatInv st) :
    CatInv (applyCatOp st op) := by
  obtain ⟨hnd, hlt⟩ := h
  cases op with
  | add cat ll =>
      have hperm : (allIds (applyCatOp st (.add cat ll))).Perm
          (st.nextPinId :: allIds st) := by
        cases cat
        · simp only [applyCatOp, addPinCat, CatState.setBucket, CatState.bucket,
            allIds, allPins, List.map_append, List.map_cons, List.map_nil,
            List.append_assoc, List.singleton_append]
          exact List.perm_middle
        · simp only [applyCatOp, addPinCat, CatState.setBucket, CatState.bucket,
            allIds, allPins, List.map_append, List.map_cons, List.map_nil,
            List.append_assoc, List.singleton_append]
          exact (List.Perm.append_left _ List.perm_middle).trans List.perm_middle
        · simp only [applyCatOp, addPinCat, CatState.setBucket, CatState.bucket,
            allIds, allPins, List.map_append, List.map_cons, List.map_nil,
            List.append_assoc, List.singleton_append]
          exact ((List.Perm.append_left _ (List.Perm.append_left _
            (List.perm_append_singleton _ _))).trans
            ((List.Perm.append_left _ List.perm_middle).trans List.perm_middle))
      have hnext : (applyCatOp st (.add cat ll)).nextPinId = st.nextPinId + 1 := by
        cases cat <;> rfl
      constructor
      · refine hperm.nodup_iff.mpr (List.nodup_cons.mpr ⟨fun hmem => ?_, hnd⟩)
        exact absurd (hlt _ hmem) (lt_irrefl _)
      · intro a ha
        rw [hnext]
        rcases List.mem_cons.mp (hperm.mem_iff.mp ha) with rfl | ha2
        · omega
        · exact lt_trans (hlt a ha2) (Nat.lt_succ_self _)
  | del i =>
      have hsub : List.Sublist (allIds (applyCatOp st (.del i))) (allIds st) := by
        simp only [applyCatOp, deletePinCat, allIds, allPins]
        exact List.Sublist.map Pin.id
          (((eraseFirstById_sublist _ _).append (eraseFirstById_sublist _ _)).append
            (eraseFirstById_sublist _ _))
      constructor
      · exact List.Nodup.sublist hsub hnd
      · intro a ha
        exact hlt a (hsub.subset ha)
  | renum i n =>
      have hids : allIds (applyCatOp st (.renum i n)) = allIds st := by
        simp only [applyCatOp, renumberPinCat, allIds, allPins, List.map_append,
          renumberList_map_id]
      constructor
      · rw [hids]; exact hnd
      · intro a ha
        rw [hids] at ha
        exact hlt a ha

/-- Helper: the id invariant is preserved along any mutation sequence. -/
theorem runCat_inv : ∀ (ops : List CatOp) (st : CatState),
    CatInv st → CatInv (runCat st ops) := by
  intro ops
  induction ops with
  | nil => intro st h; exact h
  | cons op ops ih =>
      intro st h
      exact ih _ (catInv_step st op h)

/-- Helper: the empty registry satisfies the id invariant. -/
theorem emptyCat_inv : CatInv emptyCat := by
  constructor <;> simp [allIds, allPins, emptyCat]

/-- C4: starting from the empty registry, after any sequence of add, delete
and renumber operations no category sequence contains two pins with the same
id. -/
theorem catRegistry_ids_nodup :
    ∀ ops : List CatOp,
      ((runCat emptyCat ops).salePins.map Pin.id).Nodup ∧
      ((runCat emptyCat ops).rentPins.map Pin.id).Nodup ∧
      ((runCat emptyCat ops).landPins.map Pin.id).Nodup := by
  intro ops
  obtain ⟨hnd, -⟩ := runCat_inv ops emptyCat emptyCat_inv
  simp only [allIds, allPins, List.map_append] at hnd
  exact ⟨hnd.of_append_left.of_append_left, hnd.of_append_left.of_append_right,
    hnd.of_append_right⟩

end JMaps
